import Mathlib

/-!
Shallow embedding of `generate_terraform_ctags.py`.

The script is pure string/dictionary manipulation plus filesystem and
subprocess side effects.  Pure parts (provider-name derivation, synthetic
configuration contents, lock-file/schema traversal) are embedded as Lean
functions; the side effects of each phase are embedded as a list of
`Event`s (file writes, subprocess calls, file deletions) interpreted by
`runEvents` over an association-list filesystem, where a subprocess call
either succeeds (leaving the modelled filesystem unchanged; external
tools' own writes are out of scope) or fails, which aborts the run at
that call exactly as an uncaught `subprocess.CalledProcessError` does.
-/

/-! ### Python-style string replacement

`str.replace(pat, repl)` in Python replaces every non-overlapping
occurrence of `pat`, scanning left to right.  `replaceAllFuel` implements
this over `List Char` with a fuel argument (the string length suffices:
every step consumes at least one character), keeping the definition
structurally recursive so the kernel can evaluate it.  The `pat = []`
case never arises in this program (both patterns used are non-empty). -/

def listStartsWith : List Char → List Char → Bool
  | [], _ => true
  | _ :: _, [] => false
  | p :: ps, c :: cs => p == c && listStartsWith ps cs

def containsSub (pat : List Char) : List Char → Bool
  | [] => listStartsWith pat []
  | c :: rest => listStartsWith pat (c :: rest) || containsSub pat rest

def replaceAllFuel (pat repl : List Char) : Nat → List Char → List Char
  | _, [] => []
  | 0, c :: rest => c :: rest
  | Nat.succ n, c :: rest =>
    if pat.isEmpty then c :: rest
    else if listStartsWith pat (c :: rest) then
      repl ++ replaceAllFuel pat repl n ((c :: rest).drop pat.length)
    else
      c :: replaceAllFuel pat repl n rest

/-- Python's `s.replace(pat, repl)` for non-empty `pat`. -/
def pyReplace (s pat repl : String) : String :=
  ⟨replaceAllFuel pat.data repl.data s.data.length s.data⟩

/-! ### Python-style dictionaries as association lists

Python `dict` preserves insertion order; assignment to an existing key
overwrites in place, otherwise appends.  `dictGet` is `dict.get(k)`
returning `none` for a missing key; `dictErase` models `os.unlink`'s
removal of a filesystem entry. -/

def dictInsert {α : Type} : List (String × α) → String → α → List (String × α)
  | [], key, v => [(key, v)]
  | (k, w) :: rest, key, v =>
    if k = key then (key, v) :: rest else (k, w) :: dictInsert rest key v

def dictGet {α : Type} : List (String × α) → String → Option α
  | [], _ => none
  | (k, v) :: rest, key => if k = key then some v else dictGet rest key

def dictErase {α : Type} : List (String × α) → String → List (String × α)
  | [], _ => []
  | (k, v) :: rest, key =>
    if k = key then dictErase rest key else (k, v) :: dictErase rest key

/-- Python's `d.get(k)` on a dict whose stored values are themselves
optional strings (as `provider_versions` is): a missing key and a stored
`None` both come back as `none`. -/
def pyGet (d : List (String × Option String)) (k : String) : Option String :=
  match dictGet d k with
  | none => none
  | some v => v

/-! ### Constants from the source -/

def WORKING_DIRECTORY : String := "/tmp/generate_terraform_ctags"

def CTAGS_COMMAND : String := "ctags"

def TERRAFORM_COMMAND : String := "terraform"

def TERRAFORM_SCHEMAS_FILENAME : String := "providers_schemas.json"

def TERRAFORM_SCRIPT_FILENAME : String := "generate_schemas_script.tf"

def TERRAFORM_PROVIDERS_SCRIPT : String :=
  "\nterraform \x7b\n  required_providers \x7b\n    aws = \x7b\n      source  = \"hashicorp/aws\"\n    \x7d\n    azurerm = \x7b\n      source  = \"hashicorp/azurerm\"\n    \x7d\n    dns = \x7b\n      source  = \"hashicorp/dns\"\n    \x7d\n    helm = \x7b\n      source  = \"hashicorp/helm\"\n    \x7d\n    google = \x7b\n      source  = \"hashicorp/google\"\n    \x7d\n    kubectl = \x7b\n      source  = \"gavinbunney/kubectl\"\n    \x7d\n    kubernetes = \x7b\n      source  = \"hashicorp/kubernetes\"\n    \x7d\n    opentelekomcloud = \x7b\n      source  = \"opentelekomcloud/opentelekomcloud\"\n    \x7d\n    proxmox = \x7b\n      source  = \"bpg/proxmox\"\n    \x7d\n  \x7d\n\x7d\n"

/-- `pathlib.Path` joining: `WORKING_DIRECTORY / name`. -/
def pathJoin (dir name : String) : String := dir ++ "/" ++ name

/-! ### Per-provider synthesis (lines 121-144 of the source) -/

/-- `provider_spec.replace('registry.terraform.io/', '').replace('/', '_')`
(line 128). -/
def provider_name (provider_spec : String) : String :=
  pyReplace (pyReplace provider_spec "registry.terraform.io/" "") "/" "_"

/-- Python `provider_version or 'unknown'` (line 138): `None` and the
empty string are both falsy. -/
def pyOr (v : Option String) (dflt : String) : String :=
  match v with
  | none => dflt
  | some s => if s = "" then dflt else s

/-- One line `resource "<name>" "<name>" {}` of the synthetic config
(line 132; the trailing newline is added where the file is assembled). -/
def resourceLine (r : String) : String :=
  "resource \"" ++ r ++ "\" \"" ++ r ++ "\" \x7b\x7d"

/-- One line `data "<name>" "<name>" {}` of the synthetic config
(lines 133-136). -/
def dataLine (d : String) : String :=
  "data \"" ++ d ++ "\" \"" ++ d ++ "\" \x7b\x7d"

/-- Concatenation of lines, each terminated by a newline, as the
sequential `write` calls produce. -/
def joinLines : List String → String
  | [] => ""
  | l :: rest => l ++ "\n" ++ joinLines rest

/-- Full contents of the synthetic configuration file: all resource lines
(in iteration order), then all data-source lines (lines 130-136). -/
def scriptContents (resource_schemas data_source_schemas : List String) : String :=
  joinLines (resource_schemas.map resourceLine)
    ++ joinLines (data_source_schemas.map dataLine)

/-- Side effects of the script, in program order. -/
inductive Event where
  | writeFile : String → String → Event
  | callProcess : List String → Event
  | unlink : String → Event
deriving DecidableEq

/-- Path of the ephemeral synthetic configuration file. -/
def scriptPath : String := pathJoin WORKING_DIRECTORY TERRAFORM_SCRIPT_FILENAME

/-- Argument vector of the ctags invocation for one provider
(lines 140-142). -/
def ctagsArgs (provider_spec : String) (provider_version : Option String) : List String :=
  [CTAGS_COMMAND, "-f",
   pathJoin WORKING_DIRECTORY
     (provider_name provider_spec ++ "-" ++ pyOr provider_version "unknown" ++ ".hcl.tags"),
   scriptPath]

/-- `_generate_terraform_tags_for_provider` (lines 121-144): write the
synthetic config, run ctags on it, delete it. -/
def generate_terraform_tags_for_provider (provider_spec : String)
    (provider_version : Option String)
    (resource_schemas data_source_schemas : List String) : List Event :=
  [Event.writeFile scriptPath (scriptContents resource_schemas data_source_schemas),
   Event.callProcess (ctagsArgs provider_spec provider_version),
   Event.unlink scriptPath]

/-! ### Lock file and schema JSON (lines 99-118) -/

/-- One entry of the lock file's `provider` section; `version` is the
optional `version` field. -/
structure ProviderLockEntry where
  version : Option String
deriving DecidableEq

/-- Parsed `.terraform.lock.hcl`: the optional `provider` section, in
insertion order. -/
structure LockFile where
  provider : Option (List (String × ProviderLockEntry))
deriving DecidableEq

/-- One entry of `provider_schemas`: the key sets of the optional
`resource_schemas` and `data_source_schemas` sections, in insertion
order. -/
structure ProviderSchema where
  resource_schemas : Option (List String)
  data_source_schemas : Option (List String)
deriving DecidableEq

/-- Parsed `providers_schemas.json`: the optional `provider_schemas`
mapping, in insertion order. -/
structure Schemas where
  provider_schemas : Option (List (String × ProviderSchema))
deriving DecidableEq

/-- The `provider_versions` dict built by the loop of lines 103-107:
`provider_versions[provider_spec] = provider_data.get('version')`. -/
def buildProviderVersions (lock : LockFile) : List (String × Option String) :=
  (lock.provider.getD []).foldl (fun d p => dictInsert d p.1 p.2.version) []

/-- Events of one iteration of the loop of lines 112-118. -/
def providerEvents (provider_versions : List (String × Option String))
    (p : String × ProviderSchema) : List Event :=
  generate_terraform_tags_for_provider p.1 (pyGet provider_versions p.1)
    (p.2.resource_schemas.getD []) (p.2.data_source_schemas.getD [])

/-- `_generate_terraform_tags` (lines 99-118), its two input files already
parsed into `lock` and `schemas`. -/
def generate_terraform_tags (lock : LockFile) (schemas : Schemas) : List Event :=
  ((schemas.provider_schemas.getD []).map
    (providerEvents (buildProviderVersions lock))).flatten

/-- `_generate_terraform_provider_schemas` (lines 82-96): write `main.tf`,
run `terraform init`, run the schema export.  (The redirected stdout of
the export and `os.makedirs` are effects of the external world / OS and
are not modelled.) -/
def generate_terraform_provider_schemas : List Event :=
  [Event.writeFile (pathJoin WORKING_DIRECTORY "main.tf") TERRAFORM_PROVIDERS_SCRIPT,
   Event.callProcess [TERRAFORM_COMMAND, "init"],
   Event.callProcess [TERRAFORM_COMMAND, "providers", "schema", "-json"]]

/-- The `__main__` block (lines 147-149), the tag phase's parsed inputs
standing for the files the first phase produced. -/
def main_events (lock : LockFile) (schemas : Schemas) : List Event :=
  generate_terraform_provider_schemas ++ generate_terraform_tags lock schemas

/-! ### Interpreting events over a filesystem -/

/-- Filesystem: file path to contents, insertion-ordered. -/
def FS : Type := List (String × String)

/-- Run events in order.  `fail args = true` means that subprocess call
exits non-zero: `subprocess.check_call` then raises, so the run stops
there; the result is the filesystem at that point, `false`, and the
not-yet-executed events (the failing call first).  A successful call
leaves the modelled filesystem unchanged (the external tool's own output
files are outside the model). -/
def runEvents (fail : List String → Bool) : List Event → FS → FS × Bool × List Event
  | [], fs => (fs, true, [])
  | Event.writeFile n c :: rest, fs => runEvents fail rest (dictInsert fs n c)
  | Event.unlink n :: rest, fs => runEvents fail rest (dictErase fs n)
  | Event.callProcess args :: rest, fs =>
    if fail args then (fs, false, Event.callProcess args :: rest)
    else runEvents fail rest fs

/-- The all-subprocesses-succeed schedule. -/
def noFail : List String → Bool := fun _ => false

/-- Contents of every write of the synthetic configuration file within an
event trace, in order. -/
def scriptWritesOf (events : List Event) : List String :=
  events.filterMap (fun e =>
    match e with
    | Event.writeFile n c => if n = scriptPath then some c else none
    | _ => none)

/-- Argument vectors of every subprocess invocation within an event trace,
in order. -/
def processCallsOf (events : List Event) : List (List String) :=
  events.filterMap (fun e =>
    match e with
    | Event.callProcess args => some args
    | _ => none)

/-! ### The spec's reading of provider-name derivation

The spec describes the derivation as stripping exactly one *leading*
`registry.terraform.io/` (if present) and then replacing every remaining
`/` with `_`.  `providerNameClaim` renders those words. -/

/-- Strip one leading occurrence of `pat`, if present. -/
def stripLeading (pat s : List Char) : List Char :=
  if listStartsWith pat s then s.drop pat.length else s

/-- Modelled from the spec's words: strip exactly one leading
`registry.terraform.io/` occurrence (if present), then replace every
remaining `/` with `_`. -/
def providerNameClaim (spec : String) : String :=
  ⟨(stripLeading "registry.terraform.io/".data spec.data).map
    (fun c => if c = '/' then '_' else c)⟩

/-! ### String lemmas -/

theorem listStartsWith_iff (p : List Char) :
    ∀ s, listStartsWith p s = true ↔ ∃ t, s = p ++ t := by
  induction p with
  | nil => intro s; simp [listStartsWith]
  | cons p ps ih =>
    intro s
    cases s with
    | nil => simp [listStartsWith]
    | cons c cs =>
      simp only [listStartsWith, Bool.and_eq_true, beq_iff_eq, ih, List.cons_append,
        List.cons.injEq]
      constructor
      · rintro ⟨rfl, t, rfl⟩; exact ⟨t, rfl, rfl⟩
      · rintro ⟨t, rfl, rfl⟩; exact ⟨rfl, t, rfl⟩

theorem listStartsWith_append (p t : List Char) : listStartsWith p (p ++ t) = true :=
  (listStartsWith_iff p (p ++ t)).mpr ⟨t, rfl⟩

theorem drop_len_append (a b : List Char) : (a ++ b).drop a.length = b := by
  induction a with
  | nil => rfl
  | cons x xs ih => simp [ih]

theorem replaceAll_of_not_contains (pat repl : List Char) :
    ∀ (n : Nat) (s : List Char), s.length ≤ n → containsSub pat s = false →
      replaceAllFuel pat repl n s = s := by
  intro n
  induction n with
  | zero =>
    intro s hlen _
    cases s with
    | nil => rfl
    | cons c cs => simp at hlen
  | succ n ih =>
    intro s hlen hcon
    cases s with
    | nil => rfl
    | cons c cs =>
      simp only [containsSub, Bool.or_eq_false_iff] at hcon
      have hpat : pat.isEmpty = false := by
        cases pat with
        | nil => simp [listStartsWith] at hcon
        | cons p ps => rfl
      simp only [replaceAllFuel, hpat, hcon.1, Bool.false_eq_true, if_false]
      have : cs.length ≤ n := by simpa using Nat.le_of_succ_le_succ hlen
      rw [ih cs this hcon.2]

theorem replaceAll_prepend (pat repl t : List Char) (n : Nat)
    (hpat : pat ≠ []) (hcon : containsSub pat t = false)
    (hn : (pat ++ t).length ≤ n) :
    replaceAllFuel pat repl n (pat ++ t) = repl ++ t := by
  cases pat with
  | nil => exact absurd rfl hpat
  | cons p ps =>
    cases n with
    | zero => simp at hn
    | succ m =>
      have hsw : listStartsWith (p :: ps) ((p :: ps) ++ t) = true :=
        listStartsWith_append (p :: ps) t
      simp only [List.cons_append] at hsw ⊢
      simp only [replaceAllFuel, List.isEmpty_cons, hsw, if_true, Bool.false_eq_true, if_false]
      have hdrop : (p :: (ps ++ t)).drop (p :: ps).length = t := by
        simp [drop_len_append ps t]
      rw [hdrop]
      have hlen : t.length ≤ m := by
        simp only [List.cons_append, List.length_cons, List.length_append] at hn
        omega
      rw [replaceAll_of_not_contains (p :: ps) repl m t hlen hcon]

theorem replaceAll_single_slash :
    ∀ (n : Nat) (s : List Char), s.length ≤ n →
      replaceAllFuel ['/'] ['_'] n s = s.map (fun c => if c = '/' then '_' else c) := by
  intro n
  induction n with
  | zero =>
    intro s hlen
    cases s with
    | nil => rfl
    | cons c cs => simp at hlen
  | succ n ih =>
    intro s hlen
    cases s with
    | nil => rfl
    | cons c cs =>
      have hcs : cs.length ≤ n := by simpa using Nat.le_of_succ_le_succ hlen
      by_cases hc : c = '/'
      · subst hc
        have hsw : listStartsWith ['/'] ('/' :: cs) = true := by
          simp [listStartsWith]
        simp only [replaceAllFuel, List.isEmpty_cons, hsw, if_true, Bool.false_eq_true,
          if_false, List.length_singleton, List.drop_succ_cons, List.drop_zero,
          List.map_cons, if_pos rfl]
        simpa using ih cs hcs
      · have hsw : listStartsWith ['/'] (c :: cs) = false := by
          simp only [listStartsWith, Bool.and_eq_false_iff]
          exact Or.inl (by simpa using fun h => hc h.symm)
        simp only [replaceAllFuel, List.isEmpty_cons, hsw, Bool.false_eq_true, if_false,
          List.map_cons, if_neg hc]
        rw [ih cs hcs]

/-! ### Dictionary lemmas -/

theorem dictGet_dictErase_self {α : Type} (d : List (String × α)) (k : String) :
    dictGet (dictErase d k) k = none := by
  induction d with
  | nil => rfl
  | cons p rest ih =>
    obtain ⟨k', v⟩ := p
    by_cases h : k' = k
    · simp [dictErase, h, ih]
    · simp [dictErase, dictGet, h, ih]

theorem dictErase_dictInsert {α : Type} (d : List (String × α)) (k : String) (v : α) :
    dictErase (dictInsert d k v) k = dictErase d k := by
  induction d with
  | nil => simp [dictInsert, dictErase]
  | cons p rest ih =>
    obtain ⟨k', w⟩ := p
    by_cases h : k' = k
    · simp [dictInsert, dictErase, h]
    · simp [dictInsert, dictErase, h, ih]

theorem dictErase_idem {α : Type} (d : List (String × α)) (k : String) :
    dictErase (dictErase d k) k = dictErase d k := by
  induction d with
  | nil => rfl
  | cons p rest ih =>
    obtain ⟨k', v⟩ := p
    by_cases h : k' = k
    · simp [dictErase, h, ih]
    · simp [dictErase, h, ih]

theorem dictGet_dictInsert_self {α : Type} (d : List (String × α)) (k : String) (v : α) :
    dictGet (dictInsert d k v) k = some v := by
  induction d with
  | nil => simp [dictInsert, dictGet]
  | cons p rest ih =>
    obtain ⟨k', w⟩ := p
    by_cases h : k' = k
    · simp [dictInsert, dictGet, h]
    · simp [dictInsert, dictGet, h, ih]

theorem dictGet_dictInsert_ne {α : Type} (d : List (String × α)) (k j : String) (v : α)
    (h : k ≠ j) : dictGet (dictInsert d k v) j = dictGet d j := by
  induction d with
  | nil => simp [dictInsert, dictGet, h]
  | cons p rest ih =>
    obtain ⟨k', w⟩ := p
    by_cases h' : k' = k
    · simp [dictInsert, dictGet, h', h]
    · simp only [dictInsert, h', if_false, dictGet]
      by_cases h'' : k' = j <;> simp [h'', ih]

theorem dictGet_foldl_not_mem (l : List (String × ProviderLockEntry)) :
    ∀ (acc : List (String × Option String)) (spec : String),
      spec ∉ l.map Prod.fst →
      dictGet (l.foldl (fun d p => dictInsert d p.1 p.2.version) acc) spec = dictGet acc spec := by
  induction l with
  | nil => intro acc spec _; rfl
  | cons q rest ih =>
    intro acc spec h
    simp only [List.map_cons, List.mem_cons, not_or] at h
    simp only [List.foldl_cons]
    rw [ih _ spec h.2, dictGet_dictInsert_ne _ _ _ _ (fun he => h.1 he.symm)]

theorem dictGet_foldl_insert (l : List (String × ProviderLockEntry)) :
    ∀ (acc : List (String × Option String)) (spec : String) (entry : ProviderLockEntry),
      (l.map Prod.fst).Nodup → (spec, entry) ∈ l →
      dictGet (l.foldl (fun d p => dictInsert d p.1 p.2.version) acc) spec
        = some entry.version := by
  induction l with
  | nil => intro acc spec entry _ h; simp at h
  | cons q rest ih =>
    intro acc spec entry hnodup hmem
    simp only [List.map_cons, List.nodup_cons] at hnodup
    simp only [List.foldl_cons]
    rcases List.mem_cons.mp hmem with heq | hrest
    · have hq : q = (spec, entry) := heq.symm
      subst hq
      rw [dictGet_foldl_not_mem rest _ spec hnodup.1, dictGet_dictInsert_self]
    · exact ih _ spec entry hnodup.2 hrest

/-! ### Run lemmas -/

theorem runEvents_append (fail : List String → Bool) :
    ∀ (a b : List Event) (fs : FS),
      runEvents fail (a ++ b) fs =
        if (runEvents fail a fs).2.1 = true then runEvents fail b (runEvents fail a fs).1
        else ((runEvents fail a fs).1, false, (runEvents fail a fs).2.2 ++ b) := by
  intro a
  induction a with
  | nil => intro b fs; simp [runEvents]
  | cons e rest ih =>
    intro b fs
    cases e with
    | writeFile n c => simpa only [List.cons_append, runEvents] using ih b (dictInsert fs n c)
    | unlink n => simpa only [List.cons_append, runEvents] using ih b (dictErase fs n)
    | callProcess args =>
      by_cases h : fail args = true
      · simp [runEvents, h]
      · simp only [List.cons_append, runEvents, h, Bool.false_eq_true, if_false]
        exact ih b fs

theorem run_provider_block (spec : String) (version : Option String)
    (res ds : List String) (fs : FS) :
    runEvents noFail (generate_terraform_tags_for_provider spec version res ds) fs =
      (dictErase fs scriptPath, true, []) := by
  simp [generate_terraform_tags_for_provider, runEvents, noFail, dictErase_dictInsert]

theorem run_provider_list (pv : List (String × Option String)) :
    ∀ (ps : List (String × ProviderSchema)) (fs : FS),
      runEvents noFail ((ps.map (providerEvents pv)).flatten) fs =
        (if ps.isEmpty then fs else dictErase fs scriptPath, true, []) := by
  intro ps
  induction ps with
  | nil => intro fs; simp [runEvents]
  | cons p rest ih =>
    intro fs
    have h1 : runEvents noFail (providerEvents pv p) fs = (dictErase fs scriptPath, true, []) :=
      run_provider_block p.1 (pyGet pv p.1) (p.2.resource_schemas.getD [])
        (p.2.data_source_schemas.getD []) fs
    simp only [List.map_cons, List.flatten_cons]
    rw [runEvents_append, h1]
    simp only [if_true]
    rw [ih (dictErase fs scriptPath)]
    by_cases hr : rest.isEmpty <;> simp [hr, dictErase_idem]

theorem run_tags_phase (lock : LockFile) (schemas : Schemas) (fs : FS) :
    runEvents noFail (generate_terraform_tags lock schemas) fs =
      (if (schemas.provider_schemas.getD []).isEmpty then fs else dictErase fs scriptPath,
       true, []) :=
  run_provider_list (buildProviderVersions lock) (schemas.provider_schemas.getD []) fs

/-! ### String append and line-shape lemmas -/

theorem strAppend_assoc (a b c : String) : a ++ b ++ c = a ++ (b ++ c) :=
  String.ext (by simp [String.data_append])

theorem strEmpty_append (s : String) : "" ++ s = s :=
  String.ext (by rw [String.data_append]; rfl)

theorem strAppend_empty (s : String) : s ++ "" = s :=
  String.ext (by rw [String.data_append]; exact List.append_nil s.data)

theorem joinLines_append (a b : List String) :
    joinLines (a ++ b) = joinLines a ++ joinLines b := by
  induction a with
  | nil => simp only [List.nil_append, joinLines]; rw [strEmpty_append]
  | cons l rest ih =>
    apply String.ext
    have ihd := congrArg String.data ih
    rw [String.data_append] at ihd
    simp only [List.cons_append, List.append_eq, joinLines, String.data_append,
      List.append_assoc, ihd]

theorem resourceLine_injective : Function.Injective resourceLine := by
  intro r1 r2 h
  have hd := congrArg String.data h
  simp only [resourceLine, String.data_append, List.append_assoc] at hd
  obtain ⟨-, h2⟩ := List.append_inj hd rfl
  have hlen : r1.data.length = r2.data.length := by
    have := congrArg List.length h2
    simp only [List.length_append] at this
    omega
  obtain ⟨h3, -⟩ := List.append_inj h2 hlen
  exact String.ext h3

theorem dataLine_injective : Function.Injective dataLine := by
  intro d1 d2 h
  have hd := congrArg String.data h
  simp only [dataLine, String.data_append, List.append_assoc] at hd
  obtain ⟨-, h2⟩ := List.append_inj hd rfl
  have hlen : d1.data.length = d2.data.length := by
    have := congrArg List.length h2
    simp only [List.length_append] at this
    omega
  obtain ⟨h3, -⟩ := List.append_inj h2 hlen
  exact String.ext h3

theorem resourceLine_ne_dataLine (r d : String) : resourceLine r ≠ dataLine d := by
  intro h
  have hd := congrArg String.data h
  simp only [resourceLine, dataLine, String.data_append, List.append_assoc] at hd
  simp only [List.cons_append, List.cons.injEq] at hd
  exact absurd hd.1 (by decide)

/-! ### Claims -/

/-- C1: the synthesized configuration file written by the per-provider
generator is the newline-join of one `resource "<r>" "<r>" {}` line per
resource name (type name doubling as instance label, empty body) followed
by one `data "<d>" "<d>" {}` line per data-source name; given duplicate-free
name sets (as dictionary key sets are), each resource line occurs exactly
once per member and never for a non-member, likewise each data line, for
every ordering of the sets. -/
theorem claim_c1 (provider_spec : String) (provider_version : Option String)
    (res ds : List String) (hres : res.Nodup) (hds : ds.Nodup) :
    Event.writeFile scriptPath (scriptContents res ds)
        ∈ generate_terraform_tags_for_provider provider_spec provider_version res ds ∧
    scriptContents res ds = joinLines (res.map resourceLine ++ ds.map dataLine) ∧
    (∀ r, (res.map resourceLine ++ ds.map dataLine).count (resourceLine r)
        = if r ∈ res then 1 else 0) ∧
    (∀ d, (res.map resourceLine ++ ds.map dataLine).count (dataLine d)
        = if d ∈ ds then 1 else 0) := by
  refine ⟨by simp [generate_terraform_tags_for_provider], ?_, ?_, ?_⟩
  · rw [scriptContents, joinLines_append]
  · intro r
    rw [List.count_append, List.count_map_of_injective res resourceLine resourceLine_injective r]
    have h0 : (ds.map dataLine).count (resourceLine r) = 0 := by
      rw [List.count_eq_zero]
      intro hmem
      obtain ⟨d, -, hd⟩ := List.mem_map.mp hmem
      exact resourceLine_ne_dataLine r d hd.symm
    rw [h0]
    by_cases hmem : r ∈ res
    · rw [List.count_eq_one_of_mem hres hmem, if_pos hmem]
    · rw [List.count_eq_zero_of_not_mem hmem, if_neg hmem]
  · intro d
    rw [List.count_append, List.count_map_of_injective ds dataLine dataLine_injective d]
    have h0 : (res.map resourceLine).count (dataLine d) = 0 := by
      rw [List.count_eq_zero]
      intro hmem
      obtain ⟨r, -, hr⟩ := List.mem_map.mp hmem
      exact resourceLine_ne_dataLine r d hr
    rw [h0]
    by_cases hmem : d ∈ ds
    · rw [List.count_eq_one_of_mem hds hmem, if_pos hmem]
    · rw [List.count_eq_zero_of_not_mem hmem, if_neg hmem]

/-- C1 witness: the claim instantiated at a provider with two resources
and one data source. -/
theorem claim_c1_witness :
    Event.writeFile scriptPath (scriptContents ["aws_a", "aws_b"] ["aws_d"])
        ∈ generate_terraform_tags_for_provider "registry.terraform.io/hashicorp/aws"
            (some "1.0.0") ["aws_a", "aws_b"] ["aws_d"] ∧
    scriptContents ["aws_a", "aws_b"] ["aws_d"]
        = joinLines (["aws_a", "aws_b"].map resourceLine ++ ["aws_d"].map dataLine) ∧
    (["aws_a", "aws_b"].map resourceLine ++ ["aws_d"].map dataLine).count (resourceLine "aws_a")
        = (if "aws_a" ∈ ["aws_a", "aws_b"] then 1 else 0) ∧
    (["aws_a", "aws_b"].map resourceLine ++ ["aws_d"].map dataLine).count (dataLine "aws_b")
        = (if "aws_b" ∈ ["aws_d"] then 1 else 0) :=
  ⟨(claim_c1 "registry.terraform.io/hashicorp/aws" (some "1.0.0") ["aws_a", "aws_b"] ["aws_d"]
      (by decide) (by decide)).1,
   (claim_c1 "registry.terraform.io/hashicorp/aws" (some "1.0.0") ["aws_a", "aws_b"] ["aws_d"]
      (by decide) (by decide)).2.1,
   (claim_c1 "registry.terraform.io/hashicorp/aws" (some "1.0.0") ["aws_a", "aws_b"] ["aws_d"]
      (by decide) (by decide)).2.2.1 "aws_a",
   (claim_c1 "registry.terraform.io/hashicorp/aws" (some "1.0.0") ["aws_a", "aws_b"] ["aws_d"]
      (by decide) (by decide)).2.2.2 "aws_b"⟩

/-- C2 counterexample: the code removes every occurrence of
`registry.terraform.io/`, not only a leading one, so on
`a/registry.terraform.io/b` the derived name `a_b` differs from the
`a_registry.terraform.io_b` that stripping exactly one leading occurrence
would give. -/
theorem claim_c2_counterexample :
    provider_name "a/registry.terraform.io/b" = "a_b" ∧
    providerNameClaim "a/registry.terraform.io/b" = "a_registry.terraform.io_b" ∧
    provider_name "a/registry.terraform.io/b"
      ≠ providerNameClaim "a/registry.terraform.io/b" :=
  ⟨by decide, by decide, by decide⟩

/-- C2 (amended): the derived filesystem-safe provider name removes every
occurrence of `registry.terraform.io/` anywhere in the spec and replaces
every remaining `/` with `_`; for every spec in which the registry prefix
occurs at most as a leading prefix (every real registry address), this
coincides with stripping exactly one leading occurrence, and in particular
`registry.terraform.io/hashicorp/aws` maps to `hashicorp_aws`. -/
theorem claim_c2_amended :
    (∀ spec : String,
      containsSub "registry.terraform.io/".data
          (stripLeading "registry.terraform.io/".data spec.data) = false →
      provider_name spec = providerNameClaim spec) ∧
    provider_name "registry.terraform.io/hashicorp/aws" = "hashicorp_aws" := by
  constructor
  · intro spec h
    have hinner : replaceAllFuel "registry.terraform.io/".data [] spec.data.length spec.data
        = stripLeading "registry.terraform.io/".data spec.data := by
      by_cases hsw : listStartsWith "registry.terraform.io/".data spec.data = true
      · obtain ⟨t, ht⟩ := (listStartsWith_iff _ spec.data).mp hsw
        have hstrip : stripLeading "registry.terraform.io/".data spec.data = t := by
          rw [stripLeading, if_pos hsw, ht, drop_len_append]
        rw [hstrip] at h ⊢
        rw [ht]
        rw [replaceAll_prepend _ [] t _ (by decide) h (by rw [← ht])]
        rfl
      · rw [Bool.not_eq_true] at hsw
        have hstrip : stripLeading "registry.terraform.io/".data spec.data = spec.data := by
          rw [stripLeading, if_neg (by simp [hsw])]
        rw [hstrip] at h ⊢
        exact replaceAll_of_not_contains _ _ _ _ (le_refl _) h
    apply String.ext
    have h1 : (provider_name spec).data = replaceAllFuel ['/'] ['_']
        (replaceAllFuel "registry.terraform.io/".data [] spec.data.length spec.data).length
        (replaceAllFuel "registry.terraform.io/".data [] spec.data.length spec.data) := rfl
    rw [h1, hinner, replaceAll_single_slash _ _ (le_refl _)]
    rfl
  · decide

/-- C2 witness: the amended claim's leading-prefix case applied to the
spec's own example address. -/
theorem claim_c2_witness :
    provider_name "registry.terraform.io/hashicorp/aws"
      = providerNameClaim "registry.terraform.io/hashicorp/aws" :=
  claim_c2_amended.1 "registry.terraform.io/hashicorp/aws" (by decide)

/-- C3: a provider spec listed in the schema JSON whose lock lookup yields
nothing — key absent, or present with no version — gets its ctags
invocation pointed at a tag file named with the literal version token
`unknown`. -/
theorem claim_c3 (lock : LockFile) (schemas : Schemas) (spec : String) (ps : ProviderSchema)
    (hmem : (spec, ps) ∈ schemas.provider_schemas.getD [])
    (hver : pyGet (buildProviderVersions lock) spec = none) :
    Event.callProcess
        [CTAGS_COMMAND, "-f",
         pathJoin WORKING_DIRECTORY (provider_name spec ++ "-unknown.hcl.tags"), scriptPath]
      ∈ generate_terraform_tags lock schemas := by
  have hname : provider_name spec ++ "-" ++ pyOr none "unknown" ++ ".hcl.tags"
      = provider_name spec ++ "-unknown.hcl.tags" := by
    apply String.ext
    simp [pyOr, String.data_append, List.append_assoc]
  rw [generate_terraform_tags]
  apply List.mem_flatten.mpr
  refine ⟨providerEvents (buildProviderVersions lock) (spec, ps),
    List.mem_map_of_mem _ hmem, ?_⟩
  simp [providerEvents, generate_terraform_tags_for_provider, ctagsArgs, hver, hname]

/-- C3 witness: a provider present in the schema JSON but absent from the
lock file. -/
theorem claim_c3_witness :
    Event.callProcess
        [CTAGS_COMMAND, "-f",
         pathJoin WORKING_DIRECTORY (provider_name "hashicorp/dns" ++ "-unknown.hcl.tags"),
         scriptPath]
      ∈ generate_terraform_tags ⟨some []⟩ ⟨some [("hashicorp/dns", ⟨some ["dns_a"], none⟩)]⟩ :=
  claim_c3 ⟨some []⟩ ⟨some [("hashicorp/dns", ⟨some ["dns_a"], none⟩)]⟩ "hashicorp/dns"
    ⟨some ["dns_a"], none⟩ (by decide) (by decide)

/-- C4: the end-to-end scenario — one provider
`registry.terraform.io/hashicorp/dns` with sole resource
`dns_a_record_set` and no data sources, locked at version `3.2.4` —
yields exactly a one-line synthetic file write, a ctags call targeting
`hashicorp_dns-3.2.4.hcl.tags`, and the cleanup unlink. -/
theorem claim_c4 :
    generate_terraform_tags
        ⟨some [("registry.terraform.io/hashicorp/dns", ⟨some "3.2.4"⟩)]⟩
        ⟨some [("registry.terraform.io/hashicorp/dns", ⟨some ["dns_a_record_set"], none⟩)]⟩
      = [Event.writeFile scriptPath
           "resource \"dns_a_record_set\" \"dns_a_record_set\" \x7b\x7d\n",
         Event.callProcess [CTAGS_COMMAND, "-f",
           pathJoin WORKING_DIRECTORY "hashicorp_dns-3.2.4.hcl.tags", scriptPath],
         Event.unlink scriptPath] := by decide

/-- C5: whenever the per-provider generator runs to completion the
synthetic configuration file is gone from the filesystem, the trace always
contains its write (with the synthesized contents) and its deletion, and
with zero resources and zero data sources the written body is empty. -/
theorem claim_c5 (fail : List String → Bool) (fs : FS) (spec : String)
    (version : Option String) (res ds : List String)
    (hok : (runEvents fail (generate_terraform_tags_for_provider spec version res ds) fs).2.1
      = true) :
    dictGet (runEvents fail (generate_terraform_tags_for_provider spec version res ds) fs).1
        scriptPath = none ∧
    Event.writeFile scriptPath (scriptContents res ds)
      ∈ generate_terraform_tags_for_provider spec version res ds ∧
    Event.unlink scriptPath ∈ generate_terraform_tags_for_provider spec version res ds ∧
    scriptContents [] [] = "" := by
  refine ⟨?_, by simp [generate_terraform_tags_for_provider],
    by simp [generate_terraform_tags_for_provider], by decide⟩
  by_cases h : fail (ctagsArgs spec version) = true
  · exfalso
    revert hok
    simp [generate_terraform_tags_for_provider, runEvents, h]
  · rw [Bool.not_eq_true] at h
    simp [generate_terraform_tags_for_provider, runEvents, h, dictGet_dictErase_self]

/-- C5 witness: a provider with no resources and no data sources under the
all-succeed schedule. -/
theorem claim_c5_witness :
    dictGet (runEvents noFail (generate_terraform_tags_for_provider "p" none [] []) []).1
        scriptPath = none ∧
    Event.writeFile scriptPath (scriptContents [] [])
      ∈ generate_terraform_tags_for_provider "p" none [] [] ∧
    Event.unlink scriptPath ∈ generate_terraform_tags_for_provider "p" none [] [] ∧
    scriptContents [] [] = "" :=
  claim_c5 noFail [] "p" none [] [] (by decide)

/-- C6: a missing `resource_schemas` section and a missing
`data_source_schemas` section behave exactly as explicitly empty ones —
the whole tag phase is unchanged by the substitution, in any surrounding
provider list — and the resulting synthetic file consists of the other
group's lines alone, never containing a declaration line of the missing
group. -/
theorem claim_c6 (lock : LockFile) (pre post : List (String × ProviderSchema))
    (spec : String) (res ds : List String) :
    generate_terraform_tags lock ⟨some (pre ++ [(spec, ⟨none, some ds⟩)] ++ post)⟩
      = generate_terraform_tags lock ⟨some (pre ++ [(spec, ⟨some [], some ds⟩)] ++ post)⟩ ∧
    generate_terraform_tags lock ⟨some (pre ++ [(spec, ⟨some res, none⟩)] ++ post)⟩
      = generate_terraform_tags lock ⟨some (pre ++ [(spec, ⟨some res, some []⟩)] ++ post)⟩ ∧
    scriptContents [] ds = joinLines (ds.map dataLine) ∧
    scriptContents res [] = joinLines (res.map resourceLine) ∧
    (∀ r, resourceLine r ∉ ds.map dataLine) ∧
    (∀ d, dataLine d ∉ res.map resourceLine) := by
  refine ⟨?_, ?_, ?_, ?_, ?_, ?_⟩
  · simp only [generate_terraform_tags, Option.getD_some, List.map_append, List.map_cons,
      List.map_nil]
    rfl
  · simp only [generate_terraform_tags, Option.getD_some, List.map_append, List.map_cons,
      List.map_nil]
    rfl
  · exact strEmpty_append (joinLines (ds.map dataLine))
  · exact strAppend_empty (joinLines (res.map resourceLine))
  · intro r hmem
    obtain ⟨d, -, hd⟩ := List.mem_map.mp hmem
    exact resourceLine_ne_dataLine r d hd.symm
  · intro d hmem
    obtain ⟨r, -, hr⟩ := List.mem_map.mp hmem
    exact resourceLine_ne_dataLine r d hr

/-- C7 counterexample: a lock-file entry whose `version` field is absent
does get a mapping entry — the key is present, storing the none marker —
contradicting "yields no mapping entry at all". -/
theorem claim_c7_counterexample :
    dictGet (buildProviderVersions ⟨some [("p", ⟨none⟩)]⟩) "p" = some none ∧
    dictGet (buildProviderVersions ⟨some [("p", ⟨none⟩)]⟩) "p" ≠ none :=
  ⟨by decide, by decide⟩

/-- C7 (amended): the lock-file parsing step maps each provider of the
`provider` section to that entry's optional `version` field, so an entry
without a `version` field yields a mapping entry storing the none marker
— indistinguishable from an absent key at lookup time — and the `unknown`
fallback is applied only later, at tag-file naming time. -/
theorem claim_c7_amended (lock : LockFile) (spec : String) (entry : ProviderLockEntry)
    (hnodup : ((lock.provider.getD []).map Prod.fst).Nodup)
    (hmem : (spec, entry) ∈ lock.provider.getD []) :
    dictGet (buildProviderVersions lock) spec = some entry.version ∧
    (entry.version = none →
      ctagsArgs spec (pyGet (buildProviderVersions lock) spec)
        = [CTAGS_COMMAND, "-f",
           pathJoin WORKING_DIRECTORY (provider_name spec ++ "-" ++ "unknown" ++ ".hcl.tags"),
           scriptPath]) := by
  have h1 : dictGet (buildProviderVersions lock) spec = some entry.version :=
    dictGet_foldl_insert _ _ spec entry hnodup hmem
  refine ⟨h1, fun hv => ?_⟩
  simp [ctagsArgs, pyGet, h1, hv, pyOr]

/-- C7 witness: a two-provider lock file whose second entry carries no
version. -/
theorem claim_c7_witness :
    dictGet (buildProviderVersions ⟨some [("a", ⟨some "1.2.3"⟩), ("b", ⟨none⟩)]⟩) "b"
      = some (ProviderLockEntry.mk none).version ∧
    ((ProviderLockEntry.mk none).version = none →
      ctagsArgs "b" (pyGet (buildProviderVersions
          ⟨some [("a", ⟨some "1.2.3"⟩), ("b", ⟨none⟩)]⟩) "b")
        = [CTAGS_COMMAND, "-f",
           pathJoin WORKING_DIRECTORY (provider_name "b" ++ "-" ++ "unknown" ++ ".hcl.tags"),
           scriptPath]) :=
  claim_c7_amended ⟨some [("a", ⟨some "1.2.3"⟩), ("b", ⟨none⟩)]⟩ "b" ⟨none⟩
    (by decide) (by decide)

/-- C8: running the tag phase twice on the same parsed lock file and
schema JSON is idempotent — the second pass writes byte-identical
synthetic configuration files, invokes the tag tool with exactly the same
argument vectors, succeeds, and leaves the filesystem exactly as the
first pass did. -/
theorem claim_c8 (lock : LockFile) (schemas : Schemas) (fs : FS) :
    scriptWritesOf (generate_terraform_tags lock schemas)
      = scriptWritesOf (generate_terraform_tags lock schemas) ∧
    processCallsOf (generate_terraform_tags lock schemas)
      = processCallsOf (generate_terraform_tags lock schemas) ∧
    (runEvents noFail
        (generate_terraform_tags lock schemas ++ generate_terraform_tags lock schemas) fs).1
      = (runEvents noFail (generate_terraform_tags lock schemas) fs).1 ∧
    (runEvents noFail
        (generate_terraform_tags lock schemas ++ generate_terraform_tags lock schemas) fs).2.1
      = true := by
  refine ⟨rfl, rfl, ?_, ?_⟩
  · rw [runEvents_append, run_tags_phase lock schemas fs]
    by_cases he : (schemas.provider_schemas.getD []).isEmpty
    · simp [he, run_tags_phase]
    · simp [he, run_tags_phase, dictErase_idem]
  · rw [runEvents_append, run_tags_phase lock schemas fs]
    simp [run_tags_phase]

/-- C9: a non-zero exit of any of the three subprocess invocations —
`terraform init`, the schema export `terraform providers schema -json`,
or a per-provider ctags call — aborts the run at that exact call with no
retry: nothing after the failing call executes — in particular no later
provider's events — and the filesystem keeps the partial state: just the
freshly written `main.tf` when `init` or the schema export fails, and the
current provider's still-undeleted synthetic configuration file when its
ctags call is the one that fails. -/
theorem claim_c9 (fail : List String → Bool) (lock : LockFile) (schemas : Schemas) (fs : FS) :
    (fail [TERRAFORM_COMMAND, "init"] = true →
      runEvents fail (main_events lock schemas) fs =
        (dictInsert fs (pathJoin WORKING_DIRECTORY "main.tf") TERRAFORM_PROVIDERS_SCRIPT,
         false,
         Event.callProcess [TERRAFORM_COMMAND, "init"]
           :: Event.callProcess [TERRAFORM_COMMAND, "providers", "schema", "-json"]
           :: generate_terraform_tags lock schemas)) ∧
    (fail [TERRAFORM_COMMAND, "init"] = false →
      fail [TERRAFORM_COMMAND, "providers", "schema", "-json"] = true →
      runEvents fail (main_events lock schemas) fs =
        (dictInsert fs (pathJoin WORKING_DIRECTORY "main.tf") TERRAFORM_PROVIDERS_SCRIPT,
         false,
         Event.callProcess [TERRAFORM_COMMAND, "providers", "schema", "-json"]
           :: generate_terraform_tags lock schemas)) ∧
    (∀ (spec : String) (version : Option String) (res ds : List String) (rest : List Event),
      fail (ctagsArgs spec version) = true →
      runEvents fail (generate_terraform_tags_for_provider spec version res ds ++ rest) fs =
        (dictInsert fs scriptPath (scriptContents res ds), false,
         Event.callProcess (ctagsArgs spec version) :: Event.unlink scriptPath :: rest)) := by
  refine ⟨?_, ?_, ?_⟩
  · intro h
    simp [main_events, generate_terraform_provider_schemas, List.cons_append, List.nil_append,
      runEvents, h]
  · intro h1 h2
    simp [main_events, generate_terraform_provider_schemas, List.cons_append, List.nil_append,
      runEvents, h1, h2]
  · intro spec version res ds rest h
    simp [generate_terraform_tags_for_provider, List.cons_append, List.nil_append,
      runEvents, h]

/-- C9 witness: a failing `terraform init` on an empty world, a failing
schema export after a successful `init`, and a failing ctags call with
one pending later event. -/
theorem claim_c9_witness :
    runEvents (fun args => args == [TERRAFORM_COMMAND, "init"]) (main_events ⟨none⟩ ⟨none⟩) [] =
      (dictInsert [] (pathJoin WORKING_DIRECTORY "main.tf") TERRAFORM_PROVIDERS_SCRIPT,
       false,
       Event.callProcess [TERRAFORM_COMMAND, "init"]
         :: Event.callProcess [TERRAFORM_COMMAND, "providers", "schema", "-json"]
         :: generate_terraform_tags ⟨none⟩ ⟨none⟩) ∧
    runEvents (fun args => args == [TERRAFORM_COMMAND, "providers", "schema", "-json"])
        (main_events ⟨none⟩ ⟨none⟩) [] =
      (dictInsert [] (pathJoin WORKING_DIRECTORY "main.tf") TERRAFORM_PROVIDERS_SCRIPT,
       false,
       Event.callProcess [TERRAFORM_COMMAND, "providers", "schema", "-json"]
         :: generate_terraform_tags ⟨none⟩ ⟨none⟩) ∧
    runEvents (fun args => args == ctagsArgs "p" none)
        (generate_terraform_tags_for_provider "p" none ["r1"] [] ++ [Event.unlink "later"]) [] =
      (dictInsert [] scriptPath (scriptContents ["r1"] []), false,
       Event.callProcess (ctagsArgs "p" none) :: Event.unlink scriptPath
         :: [Event.unlink "later"]) :=
  ⟨(claim_c9 (fun args => args == [TERRAFORM_COMMAND, "init"]) ⟨none⟩ ⟨none⟩ []).1 (by decide),
   (claim_c9 (fun args => args == [TERRAFORM_COMMAND, "providers", "schema", "-json"])
     ⟨none⟩ ⟨none⟩ []).2.1 (by decide) (by decide),
   (claim_c9 (fun args => args == ctagsArgs "p" none) ⟨none⟩ ⟨none⟩ []).2.2 "p" none ["r1"] []
     [Event.unlink "later"] (by decide)⟩

/-- C10: within every synthesized configuration file all resource
declaration lines precede all data-source declaration lines, and each
group appears in the iteration order of its key set: the file is the
newline-join of the resource lines in order followed by the data lines in
order, and any index holding a resource-shaped line is strictly below any
index holding a data-shaped line. -/
theorem claim_c10 (res ds : List String) :
    scriptContents res ds = joinLines (res.map resourceLine ++ ds.map dataLine) ∧
    (∀ (i j : Nat) (r d : String)
      (hi : i < (res.map resourceLine ++ ds.map dataLine).length)
      (hj : j < (res.map resourceLine ++ ds.map dataLine).length),
      (res.map resourceLine ++ ds.map dataLine).get ⟨i, hi⟩ = resourceLine r →
      (res.map resourceLine ++ ds.map dataLine).get ⟨j, hj⟩ = dataLine d →
      i < j) := by
  constructor
  · rw [scriptContents, joinLines_append]
  · intro i j r d hi hj hri hdj
    rw [List.get_eq_getElem] at hri hdj
    have hjlen : res.length ≤ j := by
      by_contra hlt
      push_neg at hlt
      have hj' : j < (res.map resourceLine).length := by simpa using hlt
      rw [List.getElem_append_left hj', List.getElem_map] at hdj
      exact resourceLine_ne_dataLine _ d hdj
    have hilen : i < res.length := by
      by_contra hge
      push_neg at hge
      have hi' : (res.map resourceLine).length ≤ i := by simpa using hge
      rw [List.getElem_append_right hi', List.getElem_map] at hri
      exact resourceLine_ne_dataLine r _ hri.symm
    omega

/-- C10 witness: one resource line and one data line, at indices 0 and 1. -/
theorem claim_c10_witness :
    scriptContents ["aws_r"] ["aws_d"]
      = joinLines (["aws_r"].map resourceLine ++ ["aws_d"].map dataLine) ∧
    (0 : Nat) < 1 :=
  ⟨(claim_c10 ["aws_r"] ["aws_d"]).1,
   (claim_c10 ["aws_r"] ["aws_d"]).2 0 1 "aws_r" "aws_d" (by decide) (by decide)
     (by decide) (by decide)⟩
